import Mathlib

/-!
Verification model of the Py2UML repository (HPC2H2/Py2UML).

The repository has three Python source files:
  code_read_parser.py     (CodeReadParser: walks Python ASTs, builds classes_info)
  UML_and_json_creator.py (JSONSaver, UMLCreator: validation, JSON dump, DOT text)
  main.py                 (driver)

This file gives a shallow embedding of the data model and the operations the
claims concern, translated from the source.  File IO, encoding detection and
the Graphviz subprocess are external collaborators: the embeddings of the
operations that touch them return the data that would be written or the error
that precedes any write.
-/

/-- Python constant values as they matter to the extractor: for class-body
assignments of a constant, the parser reads type(value).__name__. -/
inductive PyConst
| intVal (n : Int)
| floatVal (src : String)
| strVal (s : String)
| boolVal (b : Bool)
| noneVal
deriving DecidableEq

/-- type(c).__name__ in Python for a constant c. -/
def PyConst.typeName : PyConst → String
| .intVal _ => "int"
| .floatVal _ => "float"
| .strVal _ => "str"
| .boolVal _ => "bool"
| .noneVal => "NoneType"

/-- Source rendering of a constant, as produced by ast.unparse when the
constant occurs inside a rendered expression. -/
def PyConst.pyRepr : PyConst → String
| .intVal n => toString n
| .floatVal src => src
| .strVal s => "\x27" ++ s ++ "\x27"
| .boolVal b => if b then "True" else "False"
| .noneVal => "None"

/-- Python expressions, restricted to the node kinds the parser distinguishes
(ast.Name, ast.Constant, ast.Attribute).  Every other expression kind is only
ever consumed through ast.unparse, so it is embedded as otherE carrying its
source rendering. -/
inductive Expr
| name (id : String)
| constantE (value : PyConst)
| attrE (value : Expr) (attr : String)
| otherE (src : String)
deriving DecidableEq

/-- ast.unparse on the embedded expressions. -/
def unparse : Expr → String
| .name id => id
| .constantE c => c.pyRepr
| .attrE v a => unparse v ++ "." ++ a
| .otherE src => src

/-- One ast.arg: the parameter name and its optional type annotation. -/
structure Arg where
  arg : String
  annot : Option Expr
deriving DecidableEq

/-- Python statements, restricted to the node kinds the parser distinguishes
(ast.ClassDef, ast.FunctionDef, ast.Assign, ast.AnnAssign); all other
statement kinds are inert (otherStmt).  annAssign.annot embeds the AnnAssign
node field holding the type annotation.  ClassDef keywords and decorators and
FunctionDef fields not read by the parser are omitted. -/
inductive Stmt
| classDef (name : String) (bases : List Expr) (body : List Stmt)
| functionDef (name : String) (args : List Arg) (body : List Stmt)
    (decorator_list : List Expr) (returns : Option Expr)
| assign (targets : List Expr) (value : Expr)
| annAssign (target : Expr) (annot : Expr) (value : Option Expr)
| otherStmt

/-- ast.Module: a parsed source unit. -/
structure PyModule where
  body : List Stmt

/-- Statement children that can contain further statements (the bodies of
class and function definitions).  Expression children of a node contain no
statements, so they cannot contribute ClassDef nodes to a walk. -/
def Stmt.children : Stmt → List Stmt
| .classDef _ _ body => body
| .functionDef _ _ body _ _ => body
| _ => []

mutual

/-- Number of statement nodes in a statement (itself plus its bodies). -/
def Stmt.size : Stmt → Nat
| .classDef _ _ body => 1 + sizeList body
| .functionDef _ _ body _ _ => 1 + sizeList body
| .assign _ _ => 1
| .annAssign _ _ _ => 1
| .otherStmt => 1

/-- Number of statement nodes in a list of statements. -/
def sizeList : List Stmt → Nat
| [] => 0
| s :: rest => Stmt.size s + sizeList rest

end

/-- Breadth-first traversal queue step, fuelled.  ast.walk pops a node from a
FIFO queue, yields it and enqueues its children; the fuel argument makes the
recursion structural.  sizeList counts exactly one unit per node that will
ever be popped, so with fuel = sizeList of the initial queue the zero-fuel
case is reached only on the empty queue: each step pops one node of size
1 + sizeList children and enqueues exactly its children, keeping the
invariant fuel = sizeList queue. -/
def walkFuel : Nat → List Stmt → List Stmt
| _, [] => []
| 0, _ :: _ => []
| fuel+1, s :: rest => s :: walkFuel fuel (rest ++ s.children)

/-- ast.walk restricted to statements: breadth-first order over all statement
nodes of a module body. -/
def walk (body : List Stmt) : List Stmt := walkFuel (sizeList body) body

/-- Python dict assignment d[k] = v on a model of an insertion-ordered
dictionary: an existing key keeps its position and gets the new value, a new
key is appended at the end. -/
def dinsert {α : Type} : List (String × α) → String → α → List (String × α)
| [], k, v => [(k, v)]
| (k0, v0) :: rest, k, v =>
    if k0 = k then (k, v) :: rest else (k0, v0) :: dinsert rest k v

/-- Python dict lookup d[k] on the same model. -/
def dlookup {α : Type} : List (String × α) → String → Option α
| [], _ => none
| (k0, v0) :: rest, k => if k0 = k then some v0 else dlookup rest k

/-- One entry of the methods list of classes_info. -/
structure MethodInfo where
  name : String
  args : List String
  decorators : List String
  return_type : String
deriving DecidableEq

/-- One value of classes_info: attributes (insertion-ordered name to
type-label dict), methods (list of MethodInfo), parent_classes. -/
structure ClassInfo where
  attributes : List (String × String)
  methods : List MethodInfo
  parent_classes : List String
deriving DecidableEq

/-- CodeReadParser._extract_return_type. -/
def extract_return_type (returns : Option Expr) : String :=
  match returns with
  | some e => unparse e
  | none => "None"

/-- CodeReadParser._extract_arguments: every positional parameter whose name
is not self contributes one entry. -/
def extract_arguments (arguments : List Arg) : List String :=
  arguments.foldl (fun args a =>
    if a.arg ≠ "self" then
      args ++ [a.arg ++ ": " ++ (match a.annot with
        | some e => unparse e
        | none => "Any")]
    else args) []

/-- CodeReadParser._process_init_method: scan the initializer body for
ast.Assign statements whose target is an attribute of self.  ast.Assign nodes
never carry the AnnAssign field tested by hasattr in the source, so that test
is constantly false and the recorded label is always Any; AnnAssign
statements in the initializer body do not match the isinstance(stmt,
ast.Assign) check and are skipped. -/
def process_init_method (attributes : List (String × String)) (body : List Stmt) :
    List (String × String) :=
  body.foldl (fun attributes stmt =>
    match stmt with
    | .assign targets _ =>
        targets.foldl (fun attributes target =>
          match target with
          | .attrE (.name id) attr_name =>
              if id = "self" then dinsert attributes attr_name "Any" else attributes
          | _ => attributes) attributes
    | _ => attributes) attributes

/-- CodeReadParser._process_class_attribute: each ast.Name target of a plain
assignment is recorded with the type name of a constant right-hand side, Any
otherwise. -/
def process_class_attribute (attributes : List (String × String)) (targets : List Expr)
    (value : Expr) : List (String × String) :=
  targets.foldl (fun attributes target =>
    match target with
    | .name attr_name =>
        let attr_type := match value with
          | .constantE c => c.typeName
          | _ => "Any"
        dinsert attributes attr_name attr_type
    | _ => attributes) attributes

/-- CodeReadParser._process_annotated_attribute: an ast.Name target of an
AnnAssign is recorded with the source rendering of the attached expression. -/
def process_annotated_attribute (attributes : List (String × String)) (target : Expr)
    (annot : Expr) : List (String × String) :=
  match target with
  | .name attr_name => dinsert attributes attr_name (unparse annot)
  | _ => attributes

/-- CodeReadParser._process_method: builds the method record, then either
diverts an initializer to attribute discovery or appends the record. -/
def process_method (ci : ClassInfo) (name : String) (args : List Arg) (body : List Stmt)
    (decorator_list : List Expr) (returns : Option Expr) : ClassInfo :=
  let method_info : MethodInfo :=
    { name := name
      args := extract_arguments args
      decorators := decorator_list.filterMap (fun d =>
        match d with
        | .name id => some id
        | _ => none)
      return_type := extract_return_type returns }
  if name = "__init__" then
    { ci with attributes := process_init_method ci.attributes body }
  else
    { ci with methods := ci.methods ++ [method_info] }

/-- CodeReadParser._extract_class_details: one pass over the class body in
statement order, dispatching on the statement kind. -/
def extract_class_details (ci : ClassInfo) (body : List Stmt) : ClassInfo :=
  body.foldl (fun ci body_item =>
    match body_item with
    | .functionDef name args fbody decs rets => process_method ci name args fbody decs rets
    | .assign targets value =>
        { ci with attributes := process_class_attribute ci.attributes targets value }
    | .annAssign target annot _ =>
        { ci with attributes := process_annotated_attribute ci.attributes target annot }
    | _ => ci) ci

/-- The fresh classes_info entry made by CodeReadParser._register_classes for
one ClassDef, completed by _extract_class_details: empty attribute dict,
empty method list, parent_classes = the ast.Name bases. -/
def extract_class (bases : List Expr) (body : List Stmt) : ClassInfo :=
  extract_class_details
    { attributes := []
      methods := []
      parent_classes := bases.filterMap (fun base =>
        match base with
        | .name id => some id
        | _ => none) }
    body

/-- classes_info: the shared registry, an insertion-ordered dict from class
name to ClassInfo. -/
abbrev ClassRegistry := List (String × ClassInfo)

/-- CodeReadParser._register_classes: for every ClassDef in ast.walk order,
store a fresh extracted entry under the declared name, overwriting any prior
entry.  (The classes_path side table is not modelled: nothing in the claims
reads it.) -/
def register_classes (classes_info : ClassRegistry) (tree : PyModule) : ClassRegistry :=
  (walk tree.body).foldl (fun classes_info node =>
    match node with
    | .classDef class_name bases body =>
        dinsert classes_info class_name (extract_class bases body)
    | _ => classes_info) classes_info

/-- CodeReadParser._parse_all_files restricted to units that parse: each
pre-parsed unit is registered in order into the shared registry, starting
empty. -/
def register_units (units : List PyModule) : ClassRegistry :=
  units.foldl register_classes []

/-- The Python exception kinds raised by the validation and creation code. -/
inductive PyError
| valueError (msg : String)
| typeError (msg : String)
| keyError (msg : String)
| attributeError (msg : String)
deriving DecidableEq

/-- Dynamically-typed Python values, as far as the JSON-boundary validation
code distinguishes them.  Dict keys are strings: classes_info and everything
JSON-decoded is string-keyed. -/
inductive PyVal
| noneV
| boolV (b : Bool)
| intV (n : Int)
| strV (s : String)
| listV (items : List PyVal)
| dictV (entries : List (String × PyVal))

/-- Python truthiness of a value. -/
def truthy : PyVal → Bool
| .noneV => false
| .boolV b => b
| .intV n => n != 0
| .strV s => s != ""
| .listV items => !items.isEmpty
| .dictV entries => !entries.isEmpty

/-- Python iteration over a value: lists yield their items, dicts their keys,
strings their characters; other values are not iterable (a for-loop over
them raises TypeError). -/
def pyIter : PyVal → Option (List PyVal)
| .listV items => some items
| .dictV entries => some (entries.map (fun e => PyVal.strV e.1))
| .strV s => some (s.data.map (fun c => PyVal.strV (String.singleton c)))
| _ => none

/-- isinstance(v, dict). -/
def isDictV : PyVal → Bool
| .dictV _ => true
| _ => false

/-- v.keys() — available only on dicts (AttributeError otherwise). -/
def pyKeys : PyVal → Option (List String)
| .dictV entries => some (entries.map (fun e => e.1))
| _ => none

/-- v[k] on a dict (None when the key is missing, which Python raises as
KeyError at the use sites modelled here). -/
def pyGet : PyVal → String → Option PyVal
| .dictV entries, k => dlookup entries k
| _, _ => none

/-- The required_keys set of both _validate_classes_info methods. -/
def required_keys : List String := ["attributes", "methods", "parent_classes"]

/-- The per-class checks of JSONSaver._validate_classes_info, in source
order: required keys present, attributes a dict, every iterated element of
methods a dict. -/
def validate_entry (cls : String) (info : PyVal) : Except PyError Unit :=
  match pyKeys info with
  | none => .error (.attributeError (cls ++ " info has no keys method"))
  | some ks =>
    if !required_keys.all (fun k => ks.contains k) then
      .error (.keyError (cls ++ " missing keys"))
    else
      match pyGet info "attributes" with
      | none => .error (.keyError (cls ++ " attributes"))
      | some a =>
        if !isDictV a then .error (.typeError (cls ++ " attributes must be a dict."))
        else
          match pyGet info "methods" with
          | none => .error (.keyError (cls ++ " methods"))
          | some m =>
            match pyIter m with
            | none => .error (.typeError (cls ++ " methods is not iterable"))
            | some ms =>
              if !ms.all isDictV then
                .error (.typeError (cls ++ " methods must be a list of dict."))
              else .ok ()

/-- The for-loop of JSONSaver._validate_classes_info over classes_info
items: the first failing class raises. -/
def validate_entries : List (String × PyVal) → Except PyError Unit
| [] => .ok ()
| (cls, info) :: rest =>
    match validate_entry cls info with
    | .ok _ => validate_entries rest
    | .error e => .error e

/-- JSONSaver._validate_classes_info: falsy check, dict check, then the
per-class loop; returns True when all checks pass. -/
def jsonsaver_validate_classes_info (classes_info : PyVal) : Except PyError Bool :=
  if !truthy classes_info then .error (.valueError "classes_info is empty.")
  else
    match classes_info with
    | .dictV entries =>
        match validate_entries entries with
        | .ok _ => .ok true
        | .error e => .error e
    | _ => .error (.typeError "classes_info must be a dict.")

/-- JSONSaver.save_to_json: validate, then open the output file and dump.
The file write is the external persistence collaborator: the ok payload is
the path and the value dumped to it, and reaching ok is exactly reaching the
with-open block of the source. -/
def save_to_json (classes_info : PyVal) (json_path : String) :
    Except PyError (String × PyVal) :=
  match jsonsaver_validate_classes_info classes_info with
  | .error e => .error e
  | .ok valid =>
      if !valid then .error (.valueError "classes_info is not valid.")
      else .ok (json_path, classes_info)

/-- The per-class check of UMLCreator._validate_classes_info (required keys
only; this override has no container-kind checks). -/
def uml_validate_entry (cls : String) (info : PyVal) : Except PyError Unit :=
  match pyKeys info with
  | none => .error (.attributeError (cls ++ " info has no keys method"))
  | some ks =>
    if !required_keys.all (fun k => ks.contains k) then
      .error (.keyError (cls ++ " missing keys"))
    else .ok ()

/-- The for-loop of UMLCreator._validate_classes_info. -/
def uml_validate_entries : List (String × PyVal) → Except PyError Unit
| [] => .ok ()
| (cls, info) :: rest =>
    match uml_validate_entry cls info with
    | .ok _ => uml_validate_entries rest
    | .error e => .error e

/-- UMLCreator._validate_classes_info: dict check then the per-class key
check. -/
def umlcreator_validate_classes_info (classes_info : PyVal) : Except PyError Unit :=
  match classes_info with
  | .dictV entries => uml_validate_entries entries
  | _ => .error (.typeError "classes_info must be a dict.")

/-- Truthiness of an Optional[str] argument. -/
def strOptTruthy : Option String → Bool
| none => false
| some s => s != ""

/-- UMLCreator.__init__ after the template assignments: the mutual-exclusion
check, then either the json branch or the classes_info branch.  load_result
abstracts load_from_json (file read, JSON decode and its own checks); the
returned value is the classes_info field, none when the constructor leaves
it unset (neither source given).  In the classes_info branch the source
stores classes_info or an empty dict — equal to classes_info, which is
truthy there — and validates it. -/
def umlcreator_init (classes_info : PyVal) (json_path : Option String)
    (load_result : Except PyError PyVal) : Except PyError (Option PyVal) :=
  if truthy classes_info && strOptTruthy json_path then
    .error (.valueError "Only to choose one data source, classes_info or json_path.")
  else if strOptTruthy json_path then
    match load_result with
    | .ok d => .ok (some d)
    | .error e => .error e
  else if truthy classes_info then
    match umlcreator_validate_classes_info classes_info with
    | .ok _ => .ok (some classes_info)
    | .error e => .error e
  else .ok none

/-- UMLCreator.class_template: the DOT node template, with the three format
placeholders made into function arguments (class_name is spliced twice, as in
the source). -/
def class_template (class_name attributes methods : String) : String :=
  "\n        " ++ class_name ++
  " [\n            shape=plaintext\n            label=<\n                <table border=\"0\" cellborder=\"1\" cellspacing=\"0\">\n                    <tr><td><b>"
  ++ class_name ++ "</b></td></tr>\n                    " ++ attributes ++
  "\n                    " ++ methods ++
  "\n                </table>\n            >\n        ];\n        "

/-- One attribute row of a DOT node label. -/
def attr_row (name type_ : String) : String :=
  "<tr><td align=\"left\">- " ++ name ++ ": " ++ type_ ++ "</td></tr>"

/-- One method row of a DOT node label. -/
def method_row (m : MethodInfo) : String :=
  "<tr><td align=\"left\">+ " ++ m.name ++ "(): " ++ m.return_type ++ "</td></tr>"

/-- The filled node template for one registry entry, as built in the first
loop of UMLCreator.generate_dot. -/
def node_block (p : String × ClassInfo) : String :=
  class_template p.1
    (String.intercalate "\n" (p.2.attributes.map (fun a => attr_row a.1 a.2)))
    (String.intercalate "\n" (p.2.methods.map method_row))

/-- The edge statements contributed by one registry entry, as built in the
second loop of UMLCreator.generate_dot. -/
def edge_lines (p : String × ClassInfo) : List String :=
  p.2.parent_classes.map (fun parent =>
    parent ++ " -> " ++ p.1 ++ " [arrowhead=onormal];")

/-- UMLCreator.generate_dot: the opening digraph line, then one node block
per class in registry iteration order, then one edge statement per parent of
each class, then the closing line, joined with newlines. -/
def generate_dot (classes_info : ClassRegistry) : String :=
  let dot := ["digraph G \x7b"]
  let dot := dot ++ classes_info.map node_block
  let dot := dot ++ classes_info.flatMap edge_lines
  let dot := dot ++ ["\x7d"]
  String.intercalate "\n" dot

/-- UMLCreator.create_uml: empty-model check, then generate_dot, then
render_dot.  The rendering step (temp.dot write and the Graphviz subprocess)
is the external renderer collaborator: the ok payload is the DOT text handed
to it, and the error case is raised before it runs. -/
def create_uml (classes_info : ClassRegistry) : Except PyError String :=
  if classes_info.isEmpty then .error (.valueError "classes_info is empty.")
  else .ok (generate_dot classes_info)

/-- The attribute writes performed when the initializer body is scanned, in
scan order: one (name, label) pair per self-attribute target of each plain
assignment. -/
def init_writes (body : List Stmt) : List (String × String) :=
  body.flatMap (fun stmt =>
    match stmt with
    | .assign targets _ =>
        targets.filterMap (fun target =>
          match target with
          | .attrE (.name id) attr_name =>
              if id = "self" then some (attr_name, "Any") else none
          | _ => none)
    | _ => [])

/-- The attribute writes performed by one class-body statement, in order:
plain assignments write the constant-kind label, AnnAssign statements write
the rendered expression, an initializer definition writes its scanned
self-attributes, everything else writes nothing. -/
def stmt_attr_writes : Stmt → List (String × String)
| .functionDef name _ fbody _ _ =>
    if name = "__init__" then init_writes fbody else []
| .assign targets value =>
    targets.filterMap (fun target =>
      match target with
      | .name attr_name =>
          some (attr_name, match value with
            | .constantE c => c.typeName
            | _ => "Any")
      | _ => none)
| .annAssign target annot _ =>
    (match target with
      | .name attr_name => [(attr_name, unparse annot)]
      | _ => [])
| _ => []

/-- The method record a class-body statement contributes, if any: every
function definition except the initializer. -/
def method_of : Stmt → Option MethodInfo
| .functionDef name args _ decorator_list returns =>
    if name = "__init__" then none
    else some
      { name := name
        args := extract_arguments args
        decorators := decorator_list.filterMap (fun d =>
          match d with
          | .name id => some id
          | _ => none)
        return_type := extract_return_type returns }
| _ => none

/-- The registry writes performed when one unit is registered: one
(name, extracted model) pair per ClassDef in walk order. -/
def reg_writes (tree : PyModule) : List (String × ClassInfo) :=
  (walk tree.body).filterMap (fun node =>
    match node with
    | .classDef class_name bases body => some (class_name, extract_class bases body)
    | _ => none)

/-- The value of the last write to key k in a write sequence, if any. -/
def last_write {α : Type} : List (String × α) → String → Option α
| [], _ => none
| w :: ws, k =>
    match last_write ws k with
    | some v => some v
    | none => if w.1 = k then some w.2 else none

/-- The key list of a dict model. -/
def dkeys {α : Type} (d : List (String × α)) : List String := d.map (fun p => p.1)

theorem dlookup_dinsert {α : Type} (d : List (String × α)) (k k' : String) (v : α) :
    dlookup (dinsert d k v) k' = if k = k' then some v else dlookup d k' := by
  induction d with
  | nil => by_cases h : k = k' <;> simp [dinsert, dlookup, h]
  | cons p rest ih =>
      obtain ⟨k0, v0⟩ := p
      by_cases h0 : k0 = k
      · subst h0
        by_cases h : k0 = k' <;> simp [dinsert, dlookup, h]
      · by_cases h1 : k0 = k'
        · have hneq : ¬ k = k' := fun h => h0 (h1.trans h.symm)
          have hneq2 : ¬ k' = k := fun h => hneq h.symm
          simp [dinsert, dlookup, h0, h1, hneq, hneq2]
        · simp [dinsert, dlookup, h0, h1, ih]

theorem dlookup_foldl_dinsert {α : Type} (ws : List (String × α))
    (d : List (String × α)) (k : String) :
    dlookup (ws.foldl (fun d w => dinsert d w.1 w.2) d) k
      = match last_write ws k with
        | some v => some v
        | none => dlookup d k := by
  induction ws generalizing d with
  | nil => simp [last_write]
  | cons w ws ih =>
      simp only [List.foldl_cons, last_write]
      rw [ih]
      cases h : last_write ws k with
      | some v => simp
      | none =>
          by_cases hw : w.1 = k <;> simp [dlookup_dinsert, hw]

theorem dkeys_dinsert {α : Type} (d : List (String × α)) (k : String) (v : α) :
    dkeys (dinsert d k v) = if k ∈ dkeys d then dkeys d else dkeys d ++ [k] := by
  induction d with
  | nil => simp [dinsert, dkeys]
  | cons p rest ih =>
      obtain ⟨k0, v0⟩ := p
      by_cases h0 : k0 = k
      · subst h0
        simp [dinsert, dkeys]
      · have hk : ¬ k = k0 := fun h => h0 h.symm
        by_cases hm : k ∈ dkeys rest
        · simp only [dinsert, if_neg h0, dkeys, List.map_cons, List.mem_cons, hk,
            false_or] at *
          simp [ih, hm]
        · simp only [dinsert, if_neg h0, dkeys, List.map_cons, List.mem_cons, hk,
            false_or] at *
          simp [ih, hm]

theorem nodup_dkeys_dinsert {α : Type} (d : List (String × α)) (k : String) (v : α)
    (h : (dkeys d).Nodup) : (dkeys (dinsert d k v)).Nodup := by
  rw [dkeys_dinsert]
  by_cases hm : k ∈ dkeys d
  · simpa [hm] using h
  · simp [hm, List.nodup_append, h]

theorem nodup_dkeys_foldl {α : Type} (ws : List (String × α)) (d : List (String × α))
    (h : (dkeys d).Nodup) :
    (dkeys (ws.foldl (fun d w => dinsert d w.1 w.2) d)).Nodup := by
  induction ws generalizing d with
  | nil => simpa using h
  | cons w ws ih => exact ih _ (nodup_dkeys_dinsert _ _ _ h)

theorem foldl_writes {α β : Type} (step : List (String × α) → β → List (String × α))
    (w : β → List (String × α))
    (hstep : ∀ d x, step d x = (w x).foldl (fun d p => dinsert d p.1 p.2) d)
    (l : List β) (d : List (String × α)) :
    l.foldl step d = (l.flatMap w).foldl (fun d p => dinsert d p.1 p.2) d := by
  induction l generalizing d with
  | nil => rfl
  | cons x l ih => simp [List.flatMap_cons, List.foldl_append, hstep, ih]

theorem foldl_opt_writes {α β : Type} (step : List (String × α) → β → List (String × α))
    (w : β → Option (String × α))
    (hstep : ∀ d x, step d x = match w x with
      | some p => dinsert d p.1 p.2
      | none => d)
    (l : List β) (d : List (String × α)) :
    l.foldl step d = (l.filterMap w).foldl (fun d p => dinsert d p.1 p.2) d := by
  induction l generalizing d with
  | nil => rfl
  | cons x l ih =>
      cases hw : w x <;> simp [List.filterMap_cons, hw, List.foldl_cons, hstep, ih]

theorem process_init_method_eq (body : List Stmt) (attrs : List (String × String)) :
    process_init_method attrs body
      = (init_writes body).foldl (fun d p => dinsert d p.1 p.2) attrs := by
  refine foldl_writes _ _ (fun d s => ?_) body attrs
  cases s with
  | assign targets value =>
      refine foldl_opt_writes _ _ (fun d' t => ?_) targets d
      cases t with
      | attrE v a =>
          cases v with
          | name id => by_cases h : id = "self" <;> simp [h]
          | constantE c => rfl
          | attrE w b => rfl
          | otherE s => rfl
      | name id => rfl
      | constantE c => rfl
      | otherE s => rfl
  | classDef n b bd => rfl
  | functionDef n a b dl r => rfl
  | annAssign t an v => rfl
  | otherStmt => rfl

theorem process_class_attribute_eq (targets : List Expr) (value : Expr)
    (attrs : List (String × String)) :
    process_class_attribute attrs targets value
      = (targets.filterMap (fun target =>
          match target with
          | .name attr_name =>
              some (attr_name, match value with
                | .constantE c => c.typeName
                | _ => "Any")
          | _ => none)).foldl (fun d p => dinsert d p.1 p.2) attrs := by
  refine foldl_opt_writes _ _ (fun d t => ?_) targets attrs
  cases t with
  | name id => rfl
  | constantE c => rfl
  | attrE v a => rfl
  | otherE s => rfl

theorem extract_class_details_attributes (body : List Stmt) (ci : ClassInfo) :
    (extract_class_details ci body).attributes
      = (body.flatMap stmt_attr_writes).foldl (fun d p => dinsert d p.1 p.2)
          ci.attributes := by
  induction body generalizing ci with
  | nil => rfl
  | cons s rest ih =>
      cases s with
      | functionDef n args fbody dl r =>
          show (extract_class_details (process_method ci n args fbody dl r) rest).attributes
            = _
          rw [ih]
          by_cases h : n = "__init__"
          · have hm : (process_method ci n args fbody dl r).attributes
                = process_init_method ci.attributes fbody := by
              simp only [process_method]
              rw [if_pos h]
            have hw : stmt_attr_writes (Stmt.functionDef n args fbody dl r)
                = init_writes fbody := by
              simp only [stmt_attr_writes]
              rw [if_pos h]
            rw [List.flatMap_cons, List.foldl_append, hw, hm, process_init_method_eq]
          · have hm : (process_method ci n args fbody dl r).attributes = ci.attributes := by
              simp only [process_method]
              rw [if_neg h]
            have hw : stmt_attr_writes (Stmt.functionDef n args fbody dl r) = [] := by
              simp only [stmt_attr_writes]
              rw [if_neg h]
            rw [List.flatMap_cons, List.foldl_append, hw, hm]
            rfl
      | assign targets value =>
          show (extract_class_details
              { ci with attributes := process_class_attribute ci.attributes targets value }
              rest).attributes = _
          rw [ih]
          simp only [stmt_attr_writes, List.flatMap_cons, List.foldl_append]
          rw [process_class_attribute_eq]
      | annAssign t an v =>
          show (extract_class_details
              { ci with attributes := process_annotated_attribute ci.attributes t an }
              rest).attributes = _
          rw [ih]
          cases t <;>
            simp [stmt_attr_writes, List.flatMap_cons, process_annotated_attribute,
              List.foldl_cons]
      | classDef n b bd =>
          show (extract_class_details ci rest).attributes = _
          rw [ih]
          simp [stmt_attr_writes, List.flatMap_cons]
      | otherStmt =>
          show (extract_class_details ci rest).attributes = _
          rw [ih]
          simp [stmt_attr_writes, List.flatMap_cons]

theorem extract_class_details_methods (body : List Stmt) (ci : ClassInfo) :
    (extract_class_details ci body).methods = ci.methods ++ body.filterMap method_of := by
  induction body generalizing ci with
  | nil => simp [extract_class_details]
  | cons s rest ih =>
      cases s with
      | functionDef n args fbody dl r =>
          show (extract_class_details (process_method ci n args fbody dl r) rest).methods
            = _
          rw [ih]
          by_cases h : n = "__init__" <;>
            simp [process_method, method_of, h, List.filterMap_cons]
      | assign targets value =>
          show (extract_class_details
              { ci with attributes := process_class_attribute ci.attributes targets value }
              rest).methods = _
          rw [ih]
          simp [method_of, List.filterMap_cons]
      | annAssign t an v =>
          show (extract_class_details
              { ci with attributes := process_annotated_attribute ci.attributes t an }
              rest).methods = _
          rw [ih]
          simp [method_of, List.filterMap_cons]
      | classDef n b bd =>
          show (extract_class_details ci rest).methods = _
          rw [ih]
          simp [method_of, List.filterMap_cons]
      | otherStmt =>
          show (extract_class_details ci rest).methods = _
          rw [ih]
          simp [method_of, List.filterMap_cons]

theorem register_classes_eq (classes_info : ClassRegistry) (tree : PyModule) :
    register_classes classes_info tree
      = (reg_writes tree).foldl (fun d p => dinsert d p.1 p.2) classes_info := by
  refine foldl_opt_writes _ _ (fun d node => ?_) (walk tree.body) classes_info
  cases node <;> rfl

theorem dlookup_mem_dkeys {α : Type} (d : List (String × α)) (k : String) (v : α)
    (h : dlookup d k = some v) : k ∈ dkeys d := by
  induction d with
  | nil => simp [dlookup] at h
  | cons p rest ih =>
      obtain ⟨k0, v0⟩ := p
      by_cases h0 : k0 = k
      · subst h0
        show k0 ∈ k0 :: dkeys rest
        exact List.mem_cons_self _ _
      · simp only [dlookup, if_neg h0] at h
        show k ∈ k0 :: dkeys rest
        exact List.mem_cons_of_mem _ (ih h)

/-- A class body on which statement order decides the attribute label: the
AnnAssign for x precedes a plain assignment to x. -/
def c1_body : List Stmt :=
  [Stmt.annAssign (Expr.name "x") (Expr.name "str") none,
   Stmt.assign [Expr.name "x"] (Expr.constantE (PyConst.intVal 1))]

/-- C1 counterexample: in a class body where the AnnAssign x: str is followed
by the plain assignment x = 1, the extracted label of x is int (the plain
assignment wins, being processed later), not the str the claim predicts when
it says an annotated attribute label overwrites a plain one regardless of
statement order. -/
theorem claim_C1_counterexample :
    dlookup (extract_class [] c1_body).attributes "x" = some "int"
    ∧ (some "int" : Option String) ≠ some "str" :=
  ⟨rfl, by decide⟩

/-- C1 (amended): the attributes mapping of a class is built in one pass over
the class body in statement order; each of the three sources (plain
assignment, AnnAssign, initializer scan at the position of the initializer
definition) writes when its statement is processed, and on a name collision
the write of the later statement wins — so precedence follows statement
order, not source kind. -/
theorem claim_C1_amended (bases : List Expr) (body : List Stmt) (k : String) :
    dlookup (extract_class bases body).attributes k
      = last_write (body.flatMap stmt_attr_writes) k := by
  show dlookup (extract_class_details _ body).attributes k = _
  rw [extract_class_details_attributes, dlookup_foldl_dinsert]
  cases h : last_write (body.flatMap stmt_attr_writes) k <;> simp [dlookup]

/-- An initializer whose only statement is the AnnAssign self.x: int = 0. -/
def c2_init_annotated : Stmt :=
  Stmt.functionDef "__init__" [{ arg := "self", annot := none }]
    [Stmt.annAssign (Expr.attrE (Expr.name "self") "x") (Expr.name "int")
      (some (Expr.constantE (PyConst.intVal 0)))]
    [] none

/-- An initializer whose only statement is the plain assignment self.y = 1. -/
def c2_init_plain : Stmt :=
  Stmt.functionDef "__init__" [{ arg := "self", annot := none }]
    [Stmt.assign [Expr.attrE (Expr.name "self") "y"] (Expr.constantE (PyConst.intVal 1))]
    [] none

/-- C2: the annotated initializer assignment self.x: int = 0 is an AnnAssign
node, which _process_init_method skips entirely (its isinstance check admits
only ast.Assign), so no attribute is extracted at all — against the claim
that the annotation rendering int would be recorded for x.  The unannotated
case does behave as claimed: self.y = 1 records y with label Any. -/
theorem claim_C2_code_behavior :
    (extract_class [] [c2_init_annotated]).attributes = []
    ∧ (extract_class [] [c2_init_plain]).attributes = [("y", "Any")] :=
  ⟨rfl, rfl⟩

/-- C3: for every non-empty registry, the generated DOT text is the digraph
wrapper enclosing first one node block per class in registry order, then one
edge statement per (class, parent) occurrence, each of the form
parent -> child [arrowhead=onormal]; with the counts matching exactly. -/
theorem claim_C3 (classes_info : ClassRegistry) (h : classes_info ≠ []) :
    generate_dot classes_info
      = String.intercalate "\n"
          ("digraph G \x7b" ::
            (classes_info.map node_block ++ classes_info.flatMap edge_lines ++ ["\x7d"]))
    ∧ (classes_info.map node_block).length = classes_info.length
    ∧ (classes_info.flatMap edge_lines).length
        = (classes_info.map (fun p => p.2.parent_classes.length)).sum
    ∧ (∀ cls ci, (cls, ci) ∈ classes_info → ∀ parent ∈ ci.parent_classes,
        (parent ++ " -> " ++ cls ++ " [arrowhead=onormal];")
          ∈ classes_info.flatMap edge_lines)
    ∧ (∀ e ∈ classes_info.flatMap edge_lines, ∃ cls ci parent,
        (cls, ci) ∈ classes_info ∧ parent ∈ ci.parent_classes
        ∧ e = parent ++ " -> " ++ cls ++ " [arrowhead=onormal];") := by
  refine ⟨?_, ?_, ?_, ?_, ?_⟩
  · simp [generate_dot]
  · simp
  · clear h
    induction classes_info with
    | nil => rfl
    | cons p rest ih => simp [edge_lines, ih]
  · intro cls ci hm parent hp
    refine List.mem_flatMap.mpr ⟨(cls, ci), hm, ?_⟩
    exact List.mem_map.mpr ⟨parent, hp, rfl⟩
  · intro e he
    obtain ⟨p, hp, hme⟩ := List.mem_flatMap.mp he
    obtain ⟨parent, hpar, rfl⟩ := List.mem_map.mp hme
    exact ⟨p.1, p.2, parent, hp, hpar, rfl⟩

/-- A two-class demonstration registry. -/
def c3_demo : ClassRegistry :=
  [("Animal",
    { attributes := [("name", "str")]
      methods := [{ name := "speak", args := [], decorators := [], return_type := "str" }]
      parent_classes := [] }),
   ("Dog",
    { attributes := [("breed", "Any")]
      methods := []
      parent_classes := ["Animal"] })]

/-- C3 witness: the theorem applied to the concrete two-class registry. -/
theorem claim_C3_witness :
    c3_demo ≠ []
    ∧ (generate_dot c3_demo
        = String.intercalate "\n"
            ("digraph G \x7b" ::
              (c3_demo.map node_block ++ c3_demo.flatMap edge_lines ++ ["\x7d"]))
      ∧ (c3_demo.map node_block).length = c3_demo.length
      ∧ (c3_demo.flatMap edge_lines).length
          = (c3_demo.map (fun p => p.2.parent_classes.length)).sum
      ∧ (∀ cls ci, (cls, ci) ∈ c3_demo → ∀ parent ∈ ci.parent_classes,
          (parent ++ " -> " ++ cls ++ " [arrowhead=onormal];")
            ∈ c3_demo.flatMap edge_lines)
      ∧ (∀ e ∈ c3_demo.flatMap edge_lines, ∃ cls ci parent,
          (cls, ci) ∈ c3_demo ∧ parent ∈ ci.parent_classes
          ∧ e = parent ++ " -> " ++ cls ++ " [arrowhead=onormal];")) :=
  ⟨by decide, claim_C3 c3_demo (by decide)⟩

/-- C4: when a class name is defined in two units, registering both units in
order leaves exactly one registry entry under that name, and it is the fresh
model extracted from the later-processed unit (the last definition of that
name in the second unit); no error is raised, registration being total. -/
theorem claim_C4 (u1 u2 : PyModule) (n : String) (ci1 ci2 : ClassInfo)
    (h1 : last_write (reg_writes u1) n = some ci1)
    (h2 : last_write (reg_writes u2) n = some ci2) :
    dlookup (register_units [u1, u2]) n = some ci2
    ∧ (dkeys (register_units [u1, u2])).count n = 1 := by
  have hreg : register_units [u1, u2]
      = (reg_writes u2).foldl (fun d p => dinsert d p.1 p.2)
          ((reg_writes u1).foldl (fun d p => dinsert d p.1 p.2) []) := by
    show register_classes (register_classes [] u1) u2 = _
    rw [register_classes_eq (register_classes [] u1) u2, register_classes_eq [] u1]
  constructor
  · rw [hreg, dlookup_foldl_dinsert, h2]
  · have hnodup : (dkeys (register_units [u1, u2])).Nodup := by
      rw [hreg]
      refine nodup_dkeys_foldl _ _ (nodup_dkeys_foldl _ _ ?_)
      simp [dkeys]
    have hmem : n ∈ dkeys (register_units [u1, u2]) := by
      apply dlookup_mem_dkeys _ _ ci2
      rw [hreg, dlookup_foldl_dinsert, h2]
    exact List.count_eq_one_of_mem hnodup hmem

/-- First unit: class Dog with a class-body attribute x = 1. -/
def c4_unit1 : PyModule :=
  { body := [Stmt.classDef "Dog" []
      [Stmt.assign [Expr.name "x"] (Expr.constantE (PyConst.intVal 1))]] }

/-- Second unit: class Dog(Animal) with an empty body. -/
def c4_unit2 : PyModule :=
  { body := [Stmt.classDef "Dog" [Expr.name "Animal"] [Stmt.otherStmt]] }

/-- The model extracted from the first Dog. -/
def c4_ci1 : ClassInfo :=
  { attributes := [("x", "int")], methods := [], parent_classes := [] }

/-- The model extracted from the second Dog. -/
def c4_ci2 : ClassInfo :=
  { attributes := [], methods := [], parent_classes := ["Animal"] }

/-- C4 witness: the theorem applied to the two concrete one-class units. -/
theorem claim_C4_witness :
    last_write (reg_writes c4_unit1) "Dog" = some c4_ci1
    ∧ last_write (reg_writes c4_unit2) "Dog" = some c4_ci2
    ∧ (dlookup (register_units [c4_unit1, c4_unit2]) "Dog" = some c4_ci2
      ∧ (dkeys (register_units [c4_unit1, c4_unit2])).count "Dog" = 1) :=
  ⟨rfl, rfl, claim_C4 c4_unit1 c4_unit2 "Dog" c4_ci1 c4_ci2 rfl rfl⟩

/-- C5 counterexample: for a method with positional parameters (this, x), the
extracted list keeps the first positional parameter this and is not the
["x: Any"] the claim predicts when it says exactly the first positional
parameter is excluded. -/
theorem claim_C5_counterexample :
    extract_arguments [{ arg := "this", annot := none }, { arg := "x", annot := none }]
      = ["this: Any", "x: Any"]
    ∧ (["this: Any", "x: Any"] : List String) ≠ ["x: Any"] :=
  ⟨rfl, by decide⟩

/-- C5 (amended): the extracted parameter list excludes exactly the
parameters named self, wherever they occur; every parameter not named self
contributes one entry name: type-label, the label being the rendered
expression or Any if absent. -/
theorem claim_C5_amended (arguments : List Arg) :
    extract_arguments arguments
      = (arguments.filter (fun a => a.arg != "self")).map (fun a =>
          a.arg ++ ": " ++ (match a.annot with
            | some e => unparse e
            | none => "Any")) := by
  have aux : ∀ (l : List Arg) (acc : List String),
      l.foldl (fun args a =>
        if a.arg ≠ "self" then
          args ++ [a.arg ++ ": " ++ (match a.annot with
            | some e => unparse e
            | none => "Any")]
        else args) acc
      = acc ++ (l.filter (fun a => a.arg != "self")).map (fun a =>
          a.arg ++ ": " ++ (match a.annot with
            | some e => unparse e
            | none => "Any")) := by
    intro l
    induction l with
    | nil => intro acc; simp
    | cons x l ih =>
        intro acc
        simp only [List.foldl_cons, ne_eq, ite_not] at ih ⊢
        by_cases h : x.arg = "self" <;> simp [h, ih, List.filter_cons]
  simpa [extract_arguments] using aux arguments []

/-- A class body with two method definitions named f. -/
def c6_body : List Stmt :=
  [Stmt.functionDef "f" [{ arg := "self", annot := none }] [] [] (some (Expr.name "int")),
   Stmt.functionDef "f" [{ arg := "self", annot := none }] [] [] (some (Expr.name "str"))]

/-- C6 counterexample: a class body with two definitions of f yields two
method records named f — the later definition does not overwrite the
earlier one, against the claim of at most one MethodSignature per name. -/
theorem claim_C6_counterexample :
    ((extract_class [] c6_body).methods.filter (fun m => m.name == "f")).length = 2
    ∧ (2 : Nat) ≠ 1 :=
  ⟨rfl, by decide⟩

/-- C6 (amended): the methods container is an append-only list: every
non-initializer function definition of the class body contributes one record,
in definition order, and records with duplicate names are all kept. -/
theorem claim_C6_amended (bases : List Expr) (body : List Stmt) :
    (extract_class bases body).methods = body.filterMap method_of := by
  show (extract_class_details _ body).methods = _
  rw [extract_class_details_methods]
  simp

/-- C7: requesting diagram creation on an empty registry fails with the
empty-model ValueError, and no DOT text is produced (no ok outcome exists),
so nothing is handed to the renderer and no file is written. -/
theorem claim_C7 :
    create_uml [] = .error (.valueError "classes_info is empty.")
    ∧ ∀ s, create_uml [] ≠ .ok s := by
  refine ⟨rfl, ?_⟩
  intro s h
  exact Except.noConfusion h

/-- The structural faults of one classes_info entry that
JSONSaver._validate_classes_info rejects: a required key missing (or no keys
method at all), a non-dict attributes value, or a methods value whose
iteration is impossible or yields a non-dict element. -/
def entry_shape_bad (info : PyVal) : Prop :=
  (¬ ∃ ks, pyKeys info = some ks ∧ required_keys.all (fun k => ks.contains k) = true)
  ∨ (∃ a, pyGet info "attributes" = some a ∧ isDictV a = false)
  ∨ (∃ m ms, pyGet info "methods" = some m ∧ pyIter m = some ms
      ∧ ms.all isDictV = false)
  ∨ (∃ m, pyGet info "methods" = some m ∧ pyIter m = none)

theorem validate_entry_error_of_bad (cls : String) (info : PyVal)
    (h : entry_shape_bad info) : ∃ e, validate_entry cls info = .error e := by
  cases hks : pyKeys info with
  | none =>
      exact ⟨PyError.attributeError (cls ++ " info has no keys method"), by
        simp only [validate_entry, hks]⟩
  | some ks =>
      cases hall : required_keys.all (fun k => ks.contains k) with
      | false =>
          exact ⟨PyError.keyError (cls ++ " missing keys"), by
            simp only [validate_entry, hks, hall]
            simp⟩
      | true =>
          cases hga : pyGet info "attributes" with
          | none =>
              exact ⟨PyError.keyError (cls ++ " attributes"), by
                simp only [validate_entry, hks, hall, hga]
                simp⟩
          | some a =>
              cases hda : isDictV a with
              | false =>
                  exact ⟨PyError.typeError (cls ++ " attributes must be a dict."), by
                    simp only [validate_entry, hks, hall, hga, hda]
                    simp⟩
              | true =>
                  cases hgm : pyGet info "methods" with
                  | none =>
                      exact ⟨PyError.keyError (cls ++ " methods"), by
                        simp only [validate_entry, hks, hall, hga, hda, hgm]
                        simp⟩
                  | some m =>
                      cases him : pyIter m with
                      | none =>
                          exact ⟨PyError.typeError (cls ++ " methods is not iterable"), by
                            simp only [validate_entry, hks, hall, hga, hda, hgm, him]
                            simp⟩
                      | some ms =>
                          cases hms : ms.all isDictV with
                          | false =>
                              exact ⟨PyError.typeError
                                  (cls ++ " methods must be a list of dict."), by
                                simp only [validate_entry, hks, hall, hga, hda, hgm, him, hms]
                                simp⟩
                          | true =>
                              exfalso
                              rcases h with h1 | h2 | h3 | h4
                              · exact h1 ⟨ks, hks, hall⟩
                              · rcases h2 with ⟨a', ha', hda'⟩
                                rw [hga] at ha'
                                injection ha' with heq
                                subst heq
                                rw [hda] at hda'
                                exact Bool.noConfusion hda'
                              · rcases h3 with ⟨m', ms', hm', him', hms'⟩
                                rw [hgm] at hm'
                                injection hm' with heq
                                subst heq
                                rw [him] at him'
                                injection him' with heq2
                                subst heq2
                                rw [hms] at hms'
                                exact Bool.noConfusion hms'
                              · rcases h4 with ⟨m', hm', him'⟩
                                rw [hgm] at hm'
                                injection hm' with heq
                                subst heq
                                rw [him] at him'
                                exact Option.noConfusion him'

theorem validate_entries_error_of_bad (entries : List (String × PyVal))
    (h : ∃ ci ∈ entries, entry_shape_bad ci.2) :
    ∃ e, validate_entries entries = .error e := by
  induction entries with
  | nil =>
      rcases h with ⟨ci, hm, _⟩
      cases hm
  | cons p rest ih =>
      obtain ⟨cls, info⟩ := p
      cases hv : validate_entry cls info with
      | error e => exact ⟨e, by simp [validate_entries, hv]⟩
      | ok u =>
          rcases h with ⟨ci, hm, hbad⟩
          rcases List.mem_cons.mp hm with hEq | hmem
          · obtain ⟨e, he⟩ := validate_entry_error_of_bad cls info (by
              rw [hEq] at hbad
              exact hbad)
            rw [hv] at he
            exact Except.noConfusion he
          · obtain ⟨e, he⟩ := ih ⟨ci, hmem, hbad⟩
            exact ⟨e, by simp [validate_entries, hv, he]⟩

/-- A class entry whose attributes, methods and parent_classes keys are all
present, with attributes an empty dict, parent_classes an empty list — and
methods the wrong container kind: an empty dict instead of a list. -/
def c8_entry : PyVal :=
  PyVal.dictV [("attributes", PyVal.dictV []), ("methods", PyVal.dictV []),
    ("parent_classes", PyVal.listV [])]

/-- A one-class model carrying the wrong-kind methods container. -/
def c8_classes_info : PyVal := PyVal.dictV [("C", c8_entry)]

/-- C8 counterexample: the methods value of the entry is a dict — not a list,
so the container kind is wrong — yet save_to_json succeeds and the file is
written: iterating an empty dict yields no element for the all-elements check
to reject, so no shape error is raised before the write, against the
claim. -/
theorem claim_C8_counterexample :
    pyGet c8_entry "methods" = some (PyVal.dictV [])
    ∧ (∀ items, PyVal.dictV ([] : List (String × PyVal)) ≠ PyVal.listV items)
    ∧ save_to_json c8_classes_info "classes_info.json"
        = .ok ("classes_info.json", c8_classes_info) := by
  refine ⟨rfl, ?_, rfl⟩
  intro items h
  exact PyVal.noConfusion h

/-- C8 (amended): a class entry with a required key missing, a non-dict
attributes value, or a methods value whose iteration fails or yields a
non-dict element makes save_to_json raise before the file write (no ok
outcome, hence no partial output); a methods container of the wrong kind
whose iteration yields only dicts or nothing — an empty dict, for
example — is not rejected and the file is written, as the counterexample
shows. -/
theorem claim_C8_amended (entries : List (String × PyVal)) (json_path : String)
    (h : ∃ ci ∈ entries, entry_shape_bad ci.2) :
    ∃ e, save_to_json (PyVal.dictV entries) json_path = .error e := by
  have hne : entries ≠ [] := by
    rintro rfl
    rcases h with ⟨ci, hm, _⟩
    cases hm
  have htr : truthy (PyVal.dictV entries) = true := by
    cases entries with
    | nil => exact absurd rfl hne
    | cons a l => rfl
  obtain ⟨e, he⟩ := validate_entries_error_of_bad entries h
  refine ⟨e, ?_⟩
  simp [save_to_json, jsonsaver_validate_classes_info, htr, he]

/-- A one-class model whose attributes value is a list, not a dict. -/
def c8_bad_entries : List (String × PyVal) :=
  [("C", PyVal.dictV [("attributes", PyVal.listV []), ("methods", PyVal.listV []),
    ("parent_classes", PyVal.listV [])])]

/-- C8 witness: the amended theorem applied to the concrete model with a
non-dict attributes value. -/
theorem claim_C8_amended_witness :
    (∃ ci ∈ c8_bad_entries, entry_shape_bad ci.2)
    ∧ ∃ e, save_to_json (PyVal.dictV c8_bad_entries) "classes_info.json" = .error e := by
  have hbad : ∃ ci ∈ c8_bad_entries, entry_shape_bad ci.2 := by
    refine ⟨("C", PyVal.dictV [("attributes", PyVal.listV []),
      ("methods", PyVal.listV []), ("parent_classes", PyVal.listV [])]),
      List.mem_cons_self _ _, ?_⟩
    exact Or.inr (Or.inl ⟨PyVal.listV [], rfl, rfl⟩)
  exact ⟨hbad, claim_C8_amended c8_bad_entries "classes_info.json" hbad⟩

/-- C9: constructing UMLCreator with a truthy in-memory classes_info and a
non-empty json_path raises the mutual-exclusion ValueError whatever the json
load would have produced and whatever shape classes_info has — so neither
loading nor validation happens first. -/
theorem claim_C9 (classes_info : PyVal) (path : String)
    (load_result : Except PyError PyVal)
    (h1 : truthy classes_info = true) (h2 : path ≠ "") :
    umlcreator_init classes_info (some path) load_result
      = .error (.valueError "Only to choose one data source, classes_info or json_path.") := by
  have hp : strOptTruthy (some path) = true := by
    simp [strOptTruthy, h2]
  simp [umlcreator_init, h1, hp]

/-- C9 witness: the theorem applied to a concrete truthy dict and path. -/
theorem claim_C9_witness :
    truthy (PyVal.dictV [("A", PyVal.noneV)]) = true
    ∧ ("info.json" : String) ≠ ""
    ∧ umlcreator_init (PyVal.dictV [("A", PyVal.noneV)]) (some "info.json")
        (.ok PyVal.noneV)
      = .error (.valueError "Only to choose one data source, classes_info or json_path.") :=
  ⟨rfl, by decide, claim_C9 (PyVal.dictV [("A", PyVal.noneV)]) "info.json"
    (.ok PyVal.noneV) rfl (by decide)⟩

/-- C10: generate_dot itself accepts an empty registry and returns only the
digraph wrapper (no node blocks, no edges); the empty-model rejection lives
solely in create_uml, which errors before invoking the generator. -/
theorem claim_C10 :
    generate_dot [] = "digraph G \x7b\n\x7d"
    ∧ create_uml [] = .error (.valueError "classes_info is empty.") :=
  ⟨rfl, rfl⟩
